import Mathlib

/-!
Verification of the `data-and-network` pipeline (repository `project_mc859`).

The development shallowly embeds the Python modules that the specification
talks about:

* `Network/main.py` — the graph accumulator (`calculate_adequacy_weight`,
  `add_edge`, persistence helpers);
* `Pipeline/main.py` — the progress tree, reconciliation
  (`get_pipeline_progress`, `mark_empty_attractions`), the SIGINT handler and
  the depth-first orchestration loop (`exec_net_build_pipeline`);
* `Sentiments/main.py` — the retry executor (`generate_with_retry`).

Numbers are embedded as rationals (`ℚ`) for Python floats and as `ℤ`/`ℕ` for
integers.  Python's builtin `round` (banker's rounding, round half to even)
is modelled by `pyRound`.  External collaborators (places API, scraper, NLP,
LLM) are parameters of the embedding: oracles supplying the data the
orchestrator consumes.  Exceptions are modelled explicitly: the orchestration
loop returns the mutated state together with an optional propagating
exception, and the `try/except StopIteration/finally` block of
`exec_net_build_pipeline` is embedded with Python's semantics (the `finally`
clause runs on every exit path, including `SystemExit` raised by the signal
handler).  One infidelity of the source itself is modelled explicitly:
`add_edge` reads `attraction.types`, an attribute the `PlacesAPI.main.Place`
dataclass does not define, so its node-creation branch raises
`AttributeError`.
-/

/-- Python's builtin `round` on a rational: round half to even. -/
def pyRound (q : ℚ) : ℤ :=
  if q - (⌊q⌋ : ℚ) < 1/2 then ⌊q⌋
  else if 1/2 < q - (⌊q⌋ : ℚ) then ⌊q⌋ + 1
  else if ⌊q⌋ % 2 = 0 then ⌊q⌋ else ⌊q⌋ + 1

/-- `Network.main.calculate_adequacy_weight`:
clamp the sentiment score to `[-1,1]`, the user rating to `[1,5]`,
map the rating to a polarity in `[-1,1]`, form `3 + 2 * score * polarity`,
clamp to `[1,5]` and round (`int(round(x))`). -/
def calculate_adequacy_weight (sentiment_score user_rating : ℚ) : ℤ :=
  let score := max (-1 : ℚ) (min 1 sentiment_score)
  let rating := max (1 : ℚ) (min 5 user_rating)
  let polarity_rating := (rating - 3) / 2
  let adequacy_weight := 3 + 2 * (score * polarity_rating)
  pyRound (max 1 (min 5 adequacy_weight))

theorem pyRound_bounds (q : ℚ) (h1 : 1 ≤ q) (h5 : q ≤ 5) :
    1 ≤ pyRound q ∧ pyRound q ≤ 5 := by
  have hf1 : (1 : ℤ) ≤ ⌊q⌋ := Int.le_floor.mpr (by exact_mod_cast h1)
  have hf5 : ⌊q⌋ ≤ (5 : ℤ) := by
    have h := Int.floor_le_floor h5
    simpa using h
  unfold pyRound
  split_ifs with h₁ h₂ h₃
  · exact ⟨hf1, hf5⟩
  all_goals
    have hle : (1 : ℚ)/2 ≤ q - (⌊q⌋ : ℚ) := le_of_not_lt h₁
    have hq' : ((⌊q⌋ : ℚ)) < 5 := by linarith
    have hf4 : ⌊q⌋ < (5 : ℤ) := by exact_mod_cast hq'
    omega

theorem calculate_adequacy_weight_mem (s r : ℚ) :
    1 ≤ calculate_adequacy_weight s r ∧ calculate_adequacy_weight s r ≤ 5 :=
  pyRound_bounds
    (max 1 (min 5 (3 + 2 * (max (-1 : ℚ) (min 1 s) * ((max (1 : ℚ) (min 5 r) - 3) / 2)))))
    (le_max_left _ _) (max_le (by norm_num) (min_le_left _ _))

/-- C1: `calculate_adequacy_weight` always returns an integer in `[1,5]`, and
`clampedAdequacy(1,5) = 5`, `clampedAdequacy(-1,5) = 1`, `clampedAdequacy(0,3) = 3`,
`clampedAdequacy(-1,1) = 5`. -/
theorem adequacy_weight_range_and_values :
    (∀ s r : ℚ, 1 ≤ calculate_adequacy_weight s r ∧ calculate_adequacy_weight s r ≤ 5) ∧
    calculate_adequacy_weight 1 5 = 5 ∧
    calculate_adequacy_weight (-1) 5 = 1 ∧
    calculate_adequacy_weight 0 3 = 3 ∧
    calculate_adequacy_weight (-1) 1 = 5 := by
  refine ⟨calculate_adequacy_weight_mem, ?_, ?_, ?_, ?_⟩ <;>
    norm_num [calculate_adequacy_weight, pyRound]

/-! ## Graph accumulator (`Network/main.py`)

The networkx graph and the module-level `emotions_dict` are embedded as one
explicit state record.  Nodes and the emotion catalog are association lists
(python dict preserving insertion order); edges of the undirected graph are
keyed by the pair of endpoint ids, looked up in either orientation. -/

/-- `PlacesAPI.main.Place`, flattened to scalar fields
(`id`, `displayName['text']`, `rating`, `location.latitude/longitude`,
`googleMapsUri`, `userRatingCount`).  The dataclass declares **no** `types`
field and `dacite.from_dict` populates only declared fields, yet
`Network.main.add_edge` reads `attraction.types` when it creates a new
attraction node — that branch therefore raises `AttributeError`. -/
structure Place where
  id : String
  displayNameText : String
  rating : ℚ
  locationLatitude : ℚ
  locationLongitude : ℚ
  googleMapsUri : String
  userRatingCount : ℕ
deriving Repr, DecidableEq

/-- `Network.main.Emotion` dataclass. -/
structure Emotion where
  id : String
  name : String
  type : String
  associated_emotion : Option String := none
deriving Repr, DecidableEq

/-- Attributes stored on a graph node: either an attraction node
(`type='attraction'`, as found in a loaded `graph.gml` snapshot — `add_edge`
itself can never complete the creation of one, see `addAttractionNode`) or
an emotion node. -/
inductive NodeData where
  | attractionNode (name : String) (rating : ℚ) (latitude longitude : ℚ)
      (continent country city : Option String) (attraction_types : List String)
  | emotionNode (type : String) (name : String) (associated_emotion : Option String)
deriving Repr, DecidableEq

/-- Attributes stored on an edge by `add_edge`. -/
structure EdgeData where
  weight : ℤ
  count : ℕ
  review_dates : List (Option String)
deriving Repr, DecidableEq

/-- The module-level state of `Network/main.py`: the graph
`AttractionSentimentNet` (node and edge association lists) and
`emotions_dict`. -/
structure NetworkState where
  nodes : List (String × NodeData)
  edges : List ((String × String) × EdgeData)
  emotions_dict : List (String × Emotion)
deriving Repr, DecidableEq

def emptyNetwork : NetworkState := ⟨[], [], []⟩

/-- Python exceptions crossing the embedded code. -/
inductive PyExc where
  | stopIteration
  | systemExit (code : ℕ)
  | runtimeError
  | attributeError
deriving Repr, DecidableEq

/-- `AttractionSentimentNet.has_node`. -/
def has_node (s : NetworkState) (id : String) : Bool :=
  s.nodes.any (fun n => n.1 == id)

/-- An undirected edge keyed by `k` joins `a` and `b` (either orientation). -/
def edgeMatches (a b : String) (k : String × String) : Bool :=
  (k.1 == a && k.2 == b) || (k.1 == b && k.2 == a)

/-- Data of the edge between `a` and `b`, if present. -/
def find_edge (s : NetworkState) (a b : String) : Option EdgeData :=
  (s.edges.find? (fun e => edgeMatches a b e.1)).map Prod.snd

/-- `AttractionSentimentNet.has_edge`. -/
def has_edge (s : NetworkState) (a b : String) : Bool :=
  (find_edge s a b).isSome

/-- `str.lower()`: lowercase each character (computable rendering of
`String.toLower`). -/
def strLower (s : String) : String := ⟨s.data.map Char.toLower⟩

/-- `emotions_dict.get(key)`. -/
def dictGet (d : List (String × Emotion)) (key : String) : Option Emotion :=
  (d.find? (fun e => e.1 == key)).map Prod.snd

/-- Update the first element satisfying `p` (python mutates the object found
by the preceding `next(...)` lookup). -/
def setFirstBy {α : Type} (p : α → Bool) (f : α → α) : List α → List α
  | [] => []
  | x :: xs => if p x then f x :: xs else x :: setFirstBy p f xs

/-- The `Emotion` used by `add_edge`: the catalog entry for the lowercased
name, or a freshly minted one with id `"{emotion_type}_{len(emotions_dict)+1}"`. -/
def resolveEmotion (s : NetworkState) (emotion_name emotion_type : String)
    (associated_emotion : Option String) : Emotion :=
  match dictGet s.emotions_dict (strLower emotion_name) with
  | some e => e
  | none =>
      { id := emotion_type ++ "_" ++ toString (s.emotions_dict.length + 1),
        name := strLower emotion_name, type := emotion_type,
        associated_emotion := associated_emotion }

/-- First block of `add_edge` (Network/main.py:87-100): a no-op when the
attraction node exists; otherwise the code builds the `add_node` keyword
arguments and evaluates `attraction.types` — an attribute the `Place`
dataclass does not define — so the create branch raises `AttributeError`
before any mutation takes place. -/
def addAttractionNode (s : NetworkState) (attraction : Place) :
    Except PyExc NetworkState :=
  if has_node s attraction.id then Except.ok s
  else Except.error PyExc.attributeError

/-- Second block of `add_edge`: look the lowercased name up in
`emotions_dict`; if absent mint a new `Emotion` and insert it. Returns the
updated state and the emotion used. -/
def ensureEmotion (s : NetworkState) (emotion_name emotion_type : String)
    (associated_emotion : Option String) : NetworkState × Emotion :=
  match dictGet s.emotions_dict (strLower emotion_name) with
  | some e => (s, e)
  | none =>
      let e : Emotion :=
        { id := emotion_type ++ "_" ++ toString (s.emotions_dict.length + 1),
          name := strLower emotion_name, type := emotion_type,
          associated_emotion := associated_emotion }
      ({ s with emotions_dict := s.emotions_dict ++ [(e.name, e)] }, e)

/-- Third block of `add_edge`: create the emotion's graph node if absent. -/
def addEmotionNode (s : NetworkState) (emotion : Emotion) : NetworkState :=
  if has_node s emotion.id then s
  else { s with nodes := s.nodes ++ [(emotion.id,
    NodeData.emotionNode emotion.type emotion.name emotion.associated_emotion)] }

/-- Fourth block of `add_edge`: accumulate into an existing edge
(`weight += w`, `count += 1`, append the date) or create it
(`weight = w`, `count = 1`, `dates = [date]`). -/
def updateEdgeData (s : NetworkState) (aid eid : String) (edge_weight : ℤ)
    (review_date : Option String) : NetworkState :=
  if has_edge s aid eid then
    { s with edges := s.edges.map (fun e =>
        if edgeMatches aid eid e.1 then
          (e.1, { weight := e.2.weight + edge_weight, count := e.2.count + 1,
                  review_dates := e.2.review_dates ++ [review_date] })
        else e) }
  else
    { s with edges := s.edges ++ [((aid, eid),
        { weight := edge_weight, count := 1, review_dates := [review_date] })] }

/-- `Network.main.add_edge`: the four sequential blocks of the Python
function, in order; the first block raises `AttributeError` whenever the
attraction node has to be created (the location labels `continent`,
`country`, `city` would only be consumed by that node creation). -/
def add_edge (s : NetworkState) (attraction : Place)
    (emotion_name emotion_type : String)
    (sentiment_score review_rating : ℚ)
    (associated_emotion : Option String := none)
    (review_date : Option String := none)
    (continent : Option String := none) (country : Option String := none)
    (city : Option String := none) : Except PyExc NetworkState :=
  match addAttractionNode s attraction with
  | Except.error e => Except.error e
  | Except.ok s =>
      let se := ensureEmotion s emotion_name emotion_type associated_emotion
      let s := addEmotionNode se.1 se.2
      let edge_weight := calculate_adequacy_weight sentiment_score review_rating
      Except.ok (updateEdgeData s attraction.id se.2.id edge_weight review_date)

theorem find?_append_of_none {α : Type} (p : α → Bool) (l₁ l₂ : List α)
    (h : l₁.find? p = none) : (l₁ ++ l₂).find? p = l₂.find? p := by
  induction l₁ with
  | nil => rfl
  | cons x xs ih =>
      cases hpx : p x
      · simp only [List.find?_cons, hpx] at h
        simpa [List.find?_cons, hpx] using ih h
      · simp [List.find?_cons, hpx] at h

theorem map_ite_of_none {α : Type} (p : α → Bool) (f : α → α) (l : List α)
    (h : l.find? p = none) :
    l.map (fun x => if p x then f x else x) = l := by
  induction l with
  | nil => rfl
  | cons x xs ih =>
      cases hpx : p x
      · simp only [List.find?_cons, hpx] at h
        simp [hpx, ih h]
      · simp [List.find?_cons, hpx] at h

/- Stage lemmas: each block touches only its own component of the state. -/

theorem ensureEmotion_snd (s : NetworkState) (en et : String) (ae : Option String) :
    (ensureEmotion s en et ae).2 = resolveEmotion s en et ae := by
  unfold ensureEmotion resolveEmotion
  cases hd : dictGet s.emotions_dict (strLower en) <;> simp [hd]

theorem ensureEmotion_edges (s : NetworkState) (en et : String) (ae : Option String) :
    (ensureEmotion s en et ae).1.edges = s.edges := by
  unfold ensureEmotion
  cases hd : dictGet s.emotions_dict (strLower en) <;> simp [hd]

theorem ensureEmotion_dictGet (s : NetworkState) (en et : String) (ae : Option String) :
    dictGet (ensureEmotion s en et ae).1.emotions_dict (strLower en)
      = some (resolveEmotion s en et ae) := by
  unfold ensureEmotion resolveEmotion
  cases hd : dictGet s.emotions_dict (strLower en) with
  | some e => simp [hd]
  | none =>
      have hdnone : s.emotions_dict.find? (fun x => x.1 == (strLower en)) = none :=
        Option.map_eq_none.mp hd
      simp only [hd]
      unfold dictGet
      rw [find?_append_of_none _ _ _ hdnone]
      simp [List.find?_cons]

theorem addEmotionNode_edges (s : NetworkState) (e : Emotion) :
    (addEmotionNode s e).edges = s.edges := by
  unfold addEmotionNode; split <;> rfl

theorem updateEdgeData_absent (s : NetworkState) (aid eid : String) (w : ℤ)
    (rd : Option String)
    (h : s.edges.find? (fun e => edgeMatches aid eid e.1) = none) :
    (updateEdgeData s aid eid w rd).edges
      = s.edges ++ [((aid, eid), ⟨w, 1, [rd]⟩)] := by
  have hhe : has_edge s aid eid = false := by simp [has_edge, find_edge, h]
  unfold updateEdgeData
  simp [hhe]

theorem updateEdgeData_present (s : NetworkState) (aid eid : String) (w : ℤ)
    (rd : Option String) (pre : List ((String × String) × EdgeData)) (d : EdgeData)
    (hedges : s.edges = pre ++ [((aid, eid), d)])
    (hpre : pre.find? (fun e => edgeMatches aid eid e.1) = none) :
    (updateEdgeData s aid eid w rd).edges
      = pre ++ [((aid, eid),
          ⟨d.weight + w, d.count + 1, d.review_dates ++ [rd]⟩)] := by
  have hmatch : edgeMatches aid eid (aid, eid) = true := by simp [edgeMatches]
  have hfind : s.edges.find? (fun e => edgeMatches aid eid e.1)
      = some ((aid, eid), d) := by
    rw [hedges, find?_append_of_none _ _ _ hpre]
    simp [List.find?_cons, hmatch]
  have hhe : has_edge s aid eid = true := by simp [has_edge, find_edge, hfind]
  unfold updateEdgeData
  simp only [hhe, if_true]
  rw [hedges, List.map_append,
    map_ite_of_none (fun e => edgeMatches aid eid e.1)
      (fun e => (e.1, ⟨e.2.weight + w, e.2.count + 1, e.2.review_dates ++ [rd]⟩)) pre hpre]
  simp [hmatch]

theorem find_edge_eq_of_edges (s t : NetworkState) (h : s.edges = t.edges)
    (a b : String) : find_edge s a b = find_edge t a b := by
  simp [find_edge, h]

theorem find?_map_update {K V : Type} (p : K → Bool) (g : V → V)
    (l : List (K × V)) :
    (l.map (fun e => if p e.1 then (e.1, g e.2) else e)).find? (fun e => p e.1)
      = (l.find? (fun e => p e.1)).map (fun e => (e.1, g e.2)) := by
  induction l with
  | nil => rfl
  | cons x xs ih =>
      cases hpx : p x.1 <;>
        simp [List.find?_cons, hpx, ih]

/-- Membership in the edges after an edge update: an entry is an old entry,
an accumulated old entry, or the freshly created edge. -/
theorem updateEdgeData_mem (s : NetworkState) (aid eid : String) (w : ℤ)
    (rd : Option String) (x : (String × String) × EdgeData)
    (hx : x ∈ (updateEdgeData s aid eid w rd).edges) :
    (∃ y ∈ s.edges, x = y ∨
      x = (y.1, ⟨y.2.weight + w, y.2.count + 1, y.2.review_dates ++ [rd]⟩)) ∨
    x = ((aid, eid), ⟨w, 1, [rd]⟩) := by
  unfold updateEdgeData at hx
  split at hx
  · left
    obtain ⟨y, hy, hxy⟩ := List.mem_map.mp hx
    refine ⟨y, hy, ?_⟩
    cases hpy : edgeMatches aid eid y.1
    · left; rw [← hxy, hpy]; simp
    · right; rw [← hxy, hpy]; simp
  · rw [List.mem_append] at hx
    cases hx with
    | inl h => exact Or.inl ⟨x, h, Or.inl rfl⟩
    | inr h => exact Or.inr (by simpa using h)

theorem updateEdgeData_find_edge_present (s : NetworkState) (aid eid : String)
    (w : ℤ) (rd : Option String) (d : EdgeData)
    (h : find_edge s aid eid = some d) :
    find_edge (updateEdgeData s aid eid w rd) aid eid
      = some ⟨d.weight + w, d.count + 1, d.review_dates ++ [rd]⟩ := by
  have hhe : has_edge s aid eid = true := by simp [has_edge, h]
  unfold updateEdgeData
  simp only [hhe, if_true]
  unfold find_edge at h ⊢
  obtain ⟨entry, hent, hsnd⟩ := Option.map_eq_some'.mp h
  have hmap := find?_map_update (fun k => edgeMatches aid eid k)
    (fun v => ⟨v.weight + w, v.count + 1, v.review_dates ++ [rd]⟩) s.edges
  simp only [hmap, hent]
  simp [hsnd]

/-- When the attraction node is absent — i.e. whenever the first block has
to create it — `add_edge` raises `AttributeError` (at `attraction.types`,
Network/main.py:99) and performs no mutation at all. -/
theorem add_edge_of_not_has_node (s : NetworkState) (attraction : Place)
    (en et : String) (ss rr : ℚ) (ae rd c co ci : Option String)
    (h : has_node s attraction.id = false) :
    add_edge s attraction en et ss rr ae rd c co ci
      = Except.error PyExc.attributeError := by
  simp [add_edge, addAttractionNode, h]

/-- When the attraction node already exists (e.g. loaded from a persisted
snapshot), `add_edge` succeeds: it is the edge update applied after the
catalog and emotion-node blocks, whose edges are untouched. -/
theorem add_edge_of_has_node (s : NetworkState) (attraction : Place)
    (en et : String) (ss rr : ℚ) (ae rd c co ci : Option String)
    (h : has_node s attraction.id = true) :
    add_edge s attraction en et ss rr ae rd c co ci
      = Except.ok (updateEdgeData
          (addEmotionNode (ensureEmotion s en et ae).1 (resolveEmotion s en et ae))
          attraction.id (resolveEmotion s en et ae).id
          (calculate_adequacy_weight ss rr) rd) := by
  simp [add_edge, addAttractionNode, h, ensureEmotion_snd]

theorem add_edge_pre_edges (s : NetworkState) (en et : String)
    (ae : Option String) :
    (addEmotionNode (ensureEmotion s en et ae).1
      (resolveEmotion s en et ae)).edges = s.edges := by
  rw [addEmotionNode_edges, ensureEmotion_edges]

def samplePlace : Place :=
  ⟨"attraction_1", "Sample Attraction", 4, 10, 20, "maps_uri", 12⟩

def samplePlaceB : Place :=
  ⟨"attraction_2", "Other Attraction", 3, 1, 2, "uri2", 5⟩

/-- C2: evaluated on the source, the claim's scenario cannot happen.  With
the attraction node absent — exactly the claim's starting state — the very
first `add_edge` call raises `AttributeError` at `attraction.types`
(`PlacesAPI.main.Place` defines no `types` field) before any mutation, so
no edge is ever created and `count` never reaches `N`. -/
theorem add_edge_fresh_node_attribute_error :
    (∀ (s : NetworkState) (attraction : Place) (en et : String) (ss rr : ℚ)
        (ae rd c co ci : Option String),
      has_node s attraction.id = false →
      add_edge s attraction en et ss rr ae rd c co ci
        = Except.error PyExc.attributeError) ∧
    add_edge emptyNetwork samplePlace "Nice" "adjective" 1 5 (some "Joy")
      (some "2024-01-01") (some "Europe") (some "France") (some "Paris")
      = Except.error PyExc.attributeError :=
  ⟨fun s attraction en et ss rr ae rd c co ci h =>
      add_edge_of_not_has_node s attraction en et ss rr ae rd c co ci h,
   rfl⟩

theorem add_edge_fresh_node_attribute_error_witness :
    add_edge emptyNetwork samplePlaceB "calm" "adjective" 0 5 none none none
      none none = Except.error PyExc.attributeError :=
  add_edge_fresh_node_attribute_error.1 emptyNetwork samplePlaceB "calm"
    "adjective" 0 5 none none none none none rfl

/-- States reachable from `s0` (e.g. a graph snapshot loaded at module
import) by successful `add_edge` calls; failing calls raise before mutating
and therefore do not change the state. -/
inductive ReachableNetworkFrom (s0 : NetworkState) : NetworkState → Prop where
  | refl : ReachableNetworkFrom s0 s0
  | step (s t : NetworkState) (attraction : Place) (en et : String)
      (ss rr : ℚ) (ae rd c co ci : Option String) :
      ReachableNetworkFrom s0 s →
      add_edge s attraction en et ss rr ae rd c co ci = Except.ok t →
      ReachableNetworkFrom s0 t

/-- C10: starting from any state whose edges satisfy `1 ≤ count` and
`count ≤ weight ≤ 5 * count` (in particular the empty graph), every state
reachable by `add_edge` calls satisfies it for every edge; and a further
call on an existing edge (its attraction node present, as in every real
state with that edge) succeeds and adds the call's adequacy weight — an
integer in `[1,5]` — to `weight` and exactly `1` to `count`. -/
theorem add_edge_edge_invariants :
    (∀ s0 : NetworkState,
      (∀ x ∈ s0.edges, 1 ≤ x.2.count ∧ (x.2.count : ℤ) ≤ x.2.weight ∧
        x.2.weight ≤ 5 * (x.2.count : ℤ)) →
      ∀ s, ReachableNetworkFrom s0 s → ∀ x ∈ s.edges,
        1 ≤ x.2.count ∧ (x.2.count : ℤ) ≤ x.2.weight ∧
          x.2.weight ≤ 5 * (x.2.count : ℤ)) ∧
    (∀ (t : NetworkState) (attraction : Place) (en et : String) (ss rr : ℚ)
        (ae rd c co ci : Option String) (d : EdgeData),
      has_node t attraction.id = true →
      find_edge t attraction.id (resolveEmotion t en et ae).id = some d →
      ∃ t', add_edge t attraction en et ss rr ae rd c co ci = Except.ok t' ∧
        find_edge t' attraction.id (resolveEmotion t en et ae).id
          = some ⟨d.weight + calculate_adequacy_weight ss rr, d.count + 1,
              d.review_dates ++ [rd]⟩ ∧
        1 ≤ calculate_adequacy_weight ss rr ∧
        calculate_adequacy_weight ss rr ≤ 5) := by
  constructor
  · intro s0 h0 s hs
    induction hs with
    | refl => exact h0
    | step s t attraction en et ss rr ae rd c co ci hs hok ih =>
        intro x hx
        cases hnode : has_node s attraction.id
        · rw [add_edge_of_not_has_node s attraction en et ss rr ae rd c co ci
            hnode] at hok
          exact absurd hok (by simp)
        · rw [add_edge_of_has_node s attraction en et ss rr ae rd c co ci
            hnode] at hok
          injection hok with hok
          subst hok
          have hx' := updateEdgeData_mem _ _ _ _ _ x hx
          rw [add_edge_pre_edges] at hx'
          obtain ⟨hw1, hw5⟩ := calculate_adequacy_weight_mem ss rr
          rcases hx' with ⟨y, hy, hcase⟩ | hnew
          · obtain ⟨hc1, hcw, hw5y⟩ := ih y hy
            rcases hcase with rfl | rfl
            · exact ⟨hc1, hcw, hw5y⟩
            · dsimp only
              refine ⟨by omega, ?_, ?_⟩ <;>
                · push_cast
                  linarith
          · subst hnew
            exact ⟨le_refl 1, by simpa using hw1, by simpa using hw5⟩
  · intro t attraction en et ss rr ae rd c co ci d hnode hd
    obtain ⟨hw1, hw5⟩ := calculate_adequacy_weight_mem ss rr
    refine ⟨_, add_edge_of_has_node t attraction en et ss rr ae rd c co ci
      hnode, ?_, hw1, hw5⟩
    have hfe : find_edge
        (addEmotionNode (ensureEmotion t en et ae).1 (resolveEmotion t en et ae))
        attraction.id (resolveEmotion t en et ae).id = some d := by
      rw [find_edge_eq_of_edges _ t (add_edge_pre_edges t en et ae)]
      exact hd
    exact updateEdgeData_find_edge_present _ _ _ _ _ _ hfe

def sampleNetWithEdge : NetworkState :=
  ⟨[("attraction_2", NodeData.attractionNode "Other Attraction" 3 1 2 none none none []),
    ("adjective_1", NodeData.emotionNode "adjective" "calm" none)],
   [(("attraction_2", "adjective_1"), ⟨4, 2, [none]⟩)],
   [("calm", ⟨"adjective_1", "calm", "adjective", none⟩)]⟩

theorem add_edge_edge_invariants_witness :
    (1 ≤ (2:ℕ) ∧ ((2:ℕ):ℤ) ≤ (4:ℤ) ∧ (4:ℤ) ≤ 5 * ((2:ℕ):ℤ)) ∧
    (∃ t', add_edge sampleNetWithEdge samplePlaceB "calm" "adjective" (1/2) 4
          none (some "2024-02-02") none none none = Except.ok t' ∧
      find_edge t' samplePlaceB.id
          (resolveEmotion sampleNetWithEdge "calm" "adjective" none).id
        = some ⟨4 + calculate_adequacy_weight (1/2) 4, 3,
            [none, some "2024-02-02"]⟩ ∧
      1 ≤ calculate_adequacy_weight (1/2) 4 ∧
      calculate_adequacy_weight (1/2) 4 ≤ 5) :=
  ⟨add_edge_edge_invariants.1 sampleNetWithEdge (by decide) sampleNetWithEdge
      ReachableNetworkFrom.refl (("attraction_2", "adjective_1"), ⟨4, 2, [none]⟩)
      (by decide),
   add_edge_edge_invariants.2 sampleNetWithEdge samplePlaceB "calm" "adjective"
      (1/2) 4 none (some "2024-02-02") none none none ⟨4, 2, [none]⟩ rfl rfl⟩

/-! ## Progress tree and reconciliation (`Pipeline/main.py`)

The persisted progress tree mirrors the dataclasses of `Pipeline/main.py`.
The two-valued status `'✅' / '❌'` is embedded as `Progress.done /
Progress.notDone`. -/

inductive Progress where
  | done
  | notDone
deriving Repr, DecidableEq

/-- `Pipeline.main.ReviewProgress`. -/
structure ReviewProgress where
  id : String
  progress : Progress
deriving Repr, DecidableEq

/-- `Pipeline.main.AttractionProgress`. -/
structure AttractionProgress where
  id : String
  name : String
  reviews : List ReviewProgress
  progress : Progress
deriving Repr, DecidableEq

/-- `Pipeline.main.CityProgress`. -/
structure CityProgress where
  name : String
  progress : Progress
  attractions : List AttractionProgress
deriving Repr, DecidableEq

/-- `Pipeline.main.CountryProgress`. -/
structure CountryProgress where
  name : String
  progress : Progress
  cities : List CityProgress
deriving Repr, DecidableEq

/-- `Pipeline.main.ContinentProgress`. -/
structure ContinentProgress where
  name : String
  progress : Progress
  countries : List CountryProgress
deriving Repr, DecidableEq

/-- `Pipeline.main.PipelineProgress`. -/
structure PipelineProgress where
  continents : List ContinentProgress
deriving Repr, DecidableEq

/-- `Places.main.City`. -/
structure City where
  name : String
  latitude : ℚ
  longitude : ℚ
  population : ℕ
deriving Repr, DecidableEq

/-- `Places.main.Country`. -/
structure Country where
  name : String
  cities : List City
deriving Repr, DecidableEq

/-- `Places.main.Continent`. -/
structure Continent where
  name : String
  countries : List Country
deriving Repr, DecidableEq

/-- `Places.main.Places` (the location catalog). -/
structure PlacesCatalog where
  continents : List Continent
deriving Repr, DecidableEq

/-- The fresh tree synthesized by `get_pipeline_progress` when no checkpoint
file exists: every continent/country/city not done, no attractions. -/
def synthesizePipelineProgress (places_info : PlacesCatalog) : PipelineProgress :=
  ⟨places_info.continents.map (fun continent =>
    ⟨continent.name, Progress.notDone,
      continent.countries.map (fun country =>
        ⟨country.name, Progress.notDone,
          country.cities.map (fun city =>
            ⟨city.name, Progress.notDone, []⟩)⟩)⟩)⟩

/-- `Pipeline.main.get_pipeline_progress`: load the persisted tree when the
checkpoint file exists, otherwise synthesize a fresh one from the catalog. -/
def get_pipeline_progress (places_info : PlacesCatalog)
    (stored : Option PipelineProgress) : PipelineProgress :=
  match stored with
  | some p => p
  | none => synthesizePipelineProgress places_info

/-- `len(attraction.reviews) == 0`. -/
def attractionIsEmpty (a : AttractionProgress) : Bool := a.reviews.length == 0

def cityHasEmpty (c : CityProgress) : Bool := c.attractions.any attractionIsEmpty

def countryHasEmpty (c : CountryProgress) : Bool := c.cities.any cityHasEmpty

def continentHasEmpty (c : ContinentProgress) : Bool :=
  c.countries.any countryHasEmpty

def markAttraction (a : AttractionProgress) : AttractionProgress :=
  if attractionIsEmpty a then { a with progress := Progress.notDone } else a

def markCity (c : CityProgress) : CityProgress :=
  { c with
    progress := if cityHasEmpty c then Progress.notDone else c.progress,
    attractions := c.attractions.map markAttraction }

def markCountry (c : CountryProgress) : CountryProgress :=
  { c with
    progress := if countryHasEmpty c then Progress.notDone else c.progress,
    cities := c.cities.map markCity }

def markContinent (c : ContinentProgress) : ContinentProgress :=
  { c with
    progress := if continentHasEmpty c then Progress.notDone else c.progress,
    countries := c.countries.map markCountry }

/-- `Pipeline.main.mark_empty_attractions`: for every attraction with an
empty review list, set the attraction and its enclosing city, country and
continent to not done.  (The Python loops only ever write `'❌'`, so the
result is this per-level conditional re-opening.) -/
def mark_empty_attractions (p : PipelineProgress) : PipelineProgress :=
  ⟨p.continents.map markContinent⟩

/-- The reconciliation step run at every process start: load-or-synthesize
the tree, then re-open empty attractions. -/
def reconcile (places_info : PlacesCatalog) (stored : Option PipelineProgress) :
    PipelineProgress :=
  mark_empty_attractions (get_pipeline_progress places_info stored)

theorem markAttraction_reviews (a : AttractionProgress) :
    (markAttraction a).reviews = a.reviews := by
  unfold markAttraction; split <;> rfl

theorem attractionIsEmpty_mark (a : AttractionProgress) :
    attractionIsEmpty (markAttraction a) = attractionIsEmpty a := by
  simp [attractionIsEmpty, markAttraction_reviews]

theorem markAttraction_idem (a : AttractionProgress) :
    markAttraction (markAttraction a) = markAttraction a := by
  unfold markAttraction
  cases h : attractionIsEmpty a
  · simp [h]
  · have h2 : attractionIsEmpty { a with progress := Progress.notDone } = true := by
      simpa [attractionIsEmpty] using h
    simp [h, h2]

theorem cityHasEmpty_mark (c : CityProgress) :
    cityHasEmpty (markCity c) = cityHasEmpty c := by
  simp [cityHasEmpty, markCity, List.any_map, Function.comp_def, attractionIsEmpty_mark]

theorem markCity_idem (c : CityProgress) : markCity (markCity c) = markCity c := by
  unfold markCity
  cases h : c.attractions.any attractionIsEmpty <;>
    simp [cityHasEmpty, List.any_map, attractionIsEmpty_mark, List.map_map,
      markAttraction_idem, h, Function.comp_def]

theorem countryHasEmpty_mark (c : CountryProgress) :
    countryHasEmpty (markCountry c) = countryHasEmpty c := by
  simp [countryHasEmpty, markCountry, List.any_map, Function.comp_def, cityHasEmpty_mark]

theorem markCountry_idem (c : CountryProgress) :
    markCountry (markCountry c) = markCountry c := by
  unfold markCountry
  cases h : c.cities.any cityHasEmpty <;>
    simp [countryHasEmpty, List.any_map, cityHasEmpty_mark, List.map_map,
      markCity_idem, h, Function.comp_def]

theorem continentHasEmpty_mark (c : ContinentProgress) :
    continentHasEmpty (markContinent c) = continentHasEmpty c := by
  simp [continentHasEmpty, markContinent, List.any_map, Function.comp_def,
    countryHasEmpty_mark]

theorem markContinent_idem (c : ContinentProgress) :
    markContinent (markContinent c) = markContinent c := by
  unfold markContinent
  cases h : c.countries.any countryHasEmpty <;>
    simp [continentHasEmpty, List.any_map, countryHasEmpty_mark, List.map_map,
      markCountry_idem, h, Function.comp_def]

theorem mark_empty_attractions_idem (p : PipelineProgress) :
    mark_empty_attractions (mark_empty_attractions p) = mark_empty_attractions p := by
  simp [mark_empty_attractions, List.map_map, Function.comp_def, markContinent_idem]

/-- C4: after reconciliation (`mark_empty_attractions`), every attraction
whose review list is empty is not done, and so are its enclosing city,
country and continent, regardless of any prior persisted status. -/
theorem mark_empty_attractions_reopens (p : PipelineProgress) :
    ∀ cont ∈ (mark_empty_attractions p).continents,
    ∀ country ∈ cont.countries, ∀ city ∈ country.cities,
    ∀ a ∈ city.attractions, a.reviews = [] →
      a.progress = Progress.notDone ∧ city.progress = Progress.notDone ∧
      country.progress = Progress.notDone ∧ cont.progress = Progress.notDone := by
  intro cont hcont country hcountry city hcity a ha hrev
  simp only [mark_empty_attractions] at hcont
  obtain ⟨c0, hc0, rfl⟩ := List.mem_map.mp hcont
  simp only [markContinent] at hcountry
  obtain ⟨k0, hk0, rfl⟩ := List.mem_map.mp hcountry
  simp only [markCountry] at hcity
  obtain ⟨t0, ht0, rfl⟩ := List.mem_map.mp hcity
  simp only [markCity] at ha
  obtain ⟨a0, ha0, rfl⟩ := List.mem_map.mp ha
  have hrev0 : a0.reviews = [] := by
    rw [markAttraction_reviews] at hrev
    exact hrev
  have hempty : attractionIsEmpty a0 = true := by simp [attractionIsEmpty, hrev0]
  have hcity' : cityHasEmpty t0 = true := by
    simp only [cityHasEmpty, List.any_eq_true]
    exact ⟨a0, ha0, hempty⟩
  have hcountry' : countryHasEmpty k0 = true := by
    simp only [countryHasEmpty, List.any_eq_true]
    exact ⟨t0, ht0, hcity'⟩
  have hcont' : continentHasEmpty c0 = true := by
    simp only [continentHasEmpty, List.any_eq_true]
    exact ⟨k0, hk0, hcountry'⟩
  exact ⟨by simp [markAttraction, hempty], by simp [markCity, hcity'],
    by simp [markCountry, hcountry'], by simp [markContinent, hcont']⟩

def sampleDoneTree : PipelineProgress :=
  ⟨[⟨"Eu", Progress.done,
      [⟨"Fr", Progress.done,
          [⟨"Paris", Progress.done, [⟨"a1", "A1", [], Progress.done⟩]⟩]⟩]⟩]⟩

theorem mark_empty_attractions_reopens_witness :
    (⟨"a1", "A1", [], Progress.notDone⟩ : AttractionProgress).progress
        = Progress.notDone ∧
    (⟨"Paris", Progress.notDone,
        [⟨"a1", "A1", [], Progress.notDone⟩]⟩ : CityProgress).progress
      = Progress.notDone ∧
    (⟨"Fr", Progress.notDone,
        [⟨"Paris", Progress.notDone,
            [⟨"a1", "A1", [], Progress.notDone⟩]⟩]⟩ : CountryProgress).progress
      = Progress.notDone ∧
    (⟨"Eu", Progress.notDone,
        [⟨"Fr", Progress.notDone,
            [⟨"Paris", Progress.notDone,
                [⟨"a1", "A1", [], Progress.notDone⟩]⟩]⟩]⟩ :
        ContinentProgress).progress = Progress.notDone :=
  mark_empty_attractions_reopens sampleDoneTree
    ⟨"Eu", Progress.notDone,
      [⟨"Fr", Progress.notDone,
          [⟨"Paris", Progress.notDone, [⟨"a1", "A1", [], Progress.notDone⟩]⟩]⟩]⟩
    (by decide)
    ⟨"Fr", Progress.notDone,
      [⟨"Paris", Progress.notDone, [⟨"a1", "A1", [], Progress.notDone⟩]⟩]⟩
    (by decide)
    ⟨"Paris", Progress.notDone, [⟨"a1", "A1", [], Progress.notDone⟩]⟩
    (by decide)
    ⟨"a1", "A1", [], Progress.notDone⟩
    (by decide) rfl

/-- C9: reconciliation (load-or-synthesize, then re-open empty attractions)
is idempotent: reconciling the persisted result of a reconciliation with no
new data yields the identical tree. -/
theorem reconcile_idempotent (places_info : PlacesCatalog)
    (stored : Option PipelineProgress) :
    reconcile places_info (some (reconcile places_info stored))
      = reconcile places_info stored := by
  simp [reconcile, get_pipeline_progress, mark_empty_attractions_idem]

/-! ## Retry executor (`Sentiments/main.py`, `generate_with_retry`)

One attempt of `ai_model.generate_content` either returns a response, raises
one of the four structured `google.api_core` exceptions caught by the first
`except` clause, raises a `grpc.RpcError` carrying a status code, or raises
any other exception.  The nondeterministic environment (outcome of each
attempt, `random.uniform(0, 0.25)` jitter of each attempt) is passed as
oracles; the returned trace records every `time.sleep` delay. -/

inductive GrpcCode where
  | RESOURCE_EXHAUSTED
  | UNAVAILABLE
  | DEADLINE_EXCEEDED
  | OTHER_CODE
deriving Repr, DecidableEq

/-- Outcome of one `ai_model.generate_content(prompt)` attempt. -/
inductive VertexOutcome where
  | ok (response : String)
  | resourceExhausted
  | tooManyRequests
  | serviceUnavailable
  | deadlineExceeded
  | rpcError (code : GrpcCode)
  | otherError (name : String)
deriving Repr, DecidableEq

/-- Result of `generate_with_retry`: a response, a propagated (fatal)
exception, or the terminal `RuntimeError('Exceeded max retries...')`;
each with the trace of back-off sleeps performed. -/
inductive RetryResult where
  | success (response : String) (sleeps : List ℚ)
  | raised (e : VertexOutcome) (sleeps : List ℚ)
  | exhausted (sleeps : List ℚ)
deriving Repr, DecidableEq

/-- The `for attempt in range(max_retries)` loop of `generate_with_retry`:
`fuel` is the number of remaining iterations, `attempt` the current index. -/
def generate_with_retry_go (outcome : ℕ → VertexOutcome) (jitter : ℕ → ℚ)
    (base_delay : ℚ) : ℕ → ℕ → List ℚ → RetryResult
  | _, 0, sleeps => RetryResult.exhausted sleeps
  | attempt, fuel + 1, sleeps =>
    match outcome attempt with
    | VertexOutcome.ok r => RetryResult.success r sleeps
    | VertexOutcome.resourceExhausted | VertexOutcome.tooManyRequests
    | VertexOutcome.serviceUnavailable | VertexOutcome.deadlineExceeded =>
        generate_with_retry_go outcome jitter base_delay (attempt + 1) fuel
          (sleeps ++ [base_delay * 2 ^ attempt + jitter attempt])
    | VertexOutcome.rpcError code =>
        if code = GrpcCode.RESOURCE_EXHAUSTED ∨ code = GrpcCode.UNAVAILABLE ∨
            code = GrpcCode.DEADLINE_EXCEEDED then
          generate_with_retry_go outcome jitter base_delay (attempt + 1) fuel
            (sleeps ++ [base_delay * 2 ^ attempt + jitter attempt])
        else RetryResult.raised (VertexOutcome.rpcError code) sleeps
    | VertexOutcome.otherError n =>
        RetryResult.raised (VertexOutcome.otherError n) sleeps

/-- `Sentiments.main.generate_with_retry` (defaults `max_retries=12`,
`base_delay=1.0`). -/
def generate_with_retry (outcome : ℕ → VertexOutcome) (jitter : ℕ → ℚ)
    (max_retries : ℕ := 12) (base_delay : ℚ := 1) : RetryResult :=
  generate_with_retry_go outcome jitter base_delay 0 max_retries []

/-- The classification used by the two `except` clauses: the four structured
exception classes, and the three transport-level status codes. -/
def isRetryableOutcome : VertexOutcome → Bool
  | VertexOutcome.resourceExhausted | VertexOutcome.tooManyRequests
  | VertexOutcome.serviceUnavailable | VertexOutcome.deadlineExceeded => true
  | VertexOutcome.rpcError code =>
      code == GrpcCode.RESOURCE_EXHAUSTED || code == GrpcCode.UNAVAILABLE ||
        code == GrpcCode.DEADLINE_EXCEEDED
  | _ => false

/-- The back-off sleeps for `k` consecutive retryable failures starting at
attempt index `attempt`: element `i` is `base_delay * 2^(attempt+i) +
jitter (attempt+i)`. -/
def retryDelays (jitter : ℕ → ℚ) (base_delay : ℚ) : ℕ → ℕ → List ℚ
  | _, 0 => []
  | attempt, k + 1 =>
      (base_delay * 2 ^ attempt + jitter attempt) ::
        retryDelays jitter base_delay (attempt + 1) k

def isOkOutcome : VertexOutcome → Bool
  | VertexOutcome.ok _ => true
  | _ => false

/-- Running the retry loop through `k` consecutive retryable failures
advances the attempt counter by `k`, consumes `k` fuel, and appends the `k`
back-off delays to the sleep trace. -/
theorem generate_with_retry_go_spec (outcome : ℕ → VertexOutcome)
    (jitter : ℕ → ℚ) (base_delay : ℚ) :
    ∀ (k attempt fuel : ℕ) (sleeps : List ℚ), k ≤ fuel →
    (∀ i, i < k → isRetryableOutcome (outcome (attempt + i)) = true) →
    generate_with_retry_go outcome jitter base_delay attempt fuel sleeps
      = generate_with_retry_go outcome jitter base_delay (attempt + k) (fuel - k)
          (sleeps ++ retryDelays jitter base_delay attempt k) := by
  intro k
  induction k with
  | zero => intro attempt fuel sleeps _ _; simp [retryDelays]
  | succ k ih =>
      intro attempt fuel sleeps hk hr
      obtain ⟨f, rfl⟩ : ∃ f, fuel = f + 1 := ⟨fuel - 1, by omega⟩
      have h0 : isRetryableOutcome (outcome attempt) = true := by
        simpa using hr 0 (by omega)
      have hstep : generate_with_retry_go outcome jitter base_delay attempt
          (f + 1) sleeps
          = generate_with_retry_go outcome jitter base_delay (attempt + 1) f
              (sleeps ++ [base_delay * 2 ^ attempt + jitter attempt]) := by
        cases o : outcome attempt with
        | ok r => rw [o] at h0; simp [isRetryableOutcome] at h0
        | resourceExhausted => simp [generate_with_retry_go, o]
        | tooManyRequests => simp [generate_with_retry_go, o]
        | serviceUnavailable => simp [generate_with_retry_go, o]
        | deadlineExceeded => simp [generate_with_retry_go, o]
        | rpcError code =>
            rw [o] at h0
            cases code <;> simp_all [generate_with_retry_go, isRetryableOutcome]
        | otherError n => rw [o] at h0; simp [isRetryableOutcome] at h0
      have hr' : ∀ i, i < k →
          isRetryableOutcome (outcome (attempt + 1 + i)) = true := by
        intro i hi
        have h := hr (i + 1) (by omega)
        rw [show attempt + 1 + i = attempt + (i + 1) from by omega]
        exact h
      rw [hstep, ih (attempt + 1) f _ (by omega) hr']
      rw [List.append_assoc]
      have e1 : attempt + 1 + k = attempt + (k + 1) := by omega
      have e2 : f - k = f + 1 - (k + 1) := by omega
      rw [e1, e2]
      rfl

/-- C7: retryable classification (structured 429/503/504 exceptions and the
matching transport-level gRPC codes), exponential back-off with jitter,
immediate propagation of fatal errors without a sleep, and the terminal
retries-exhausted error after `max_retries` (default 12) retryable failures
in a row. -/
theorem generate_with_retry_spec :
    (∀ (outcome : ℕ → VertexOutcome) (jitter : ℕ → ℚ),
      generate_with_retry outcome jitter
        = generate_with_retry outcome jitter 12 1) ∧
    (∀ (outcome : ℕ → VertexOutcome) (jitter : ℕ → ℚ)
        (max_retries : ℕ) (base_delay : ℚ) (k : ℕ) (r : String),
      k < max_retries →
      (∀ i, i < k → isRetryableOutcome (outcome i) = true) →
      outcome k = VertexOutcome.ok r →
      generate_with_retry outcome jitter max_retries base_delay
        = RetryResult.success r (retryDelays jitter base_delay 0 k)) ∧
    (∀ (outcome : ℕ → VertexOutcome) (jitter : ℕ → ℚ)
        (max_retries : ℕ) (base_delay : ℚ) (k : ℕ),
      k < max_retries →
      (∀ i, i < k → isRetryableOutcome (outcome i) = true) →
      isRetryableOutcome (outcome k) = false →
      isOkOutcome (outcome k) = false →
      generate_with_retry outcome jitter max_retries base_delay
        = RetryResult.raised (outcome k) (retryDelays jitter base_delay 0 k)) ∧
    (∀ (outcome : ℕ → VertexOutcome) (jitter : ℕ → ℚ)
        (max_retries : ℕ) (base_delay : ℚ),
      (∀ i, i < max_retries → isRetryableOutcome (outcome i) = true) →
      generate_with_retry outcome jitter max_retries base_delay
        = RetryResult.exhausted (retryDelays jitter base_delay 0 max_retries)) ∧
    (∀ (jitter : ℕ → ℚ) (base_delay : ℚ) (a k i : ℕ), i < k →
      (retryDelays jitter base_delay a k)[i]?
        = some (base_delay * 2 ^ (a + i) + jitter (a + i))) := by
  refine ⟨fun _ _ => rfl, ?_, ?_, ?_, ?_⟩
  · intro outcome jitter max_retries base_delay k r hk hr hok
    unfold generate_with_retry
    rw [generate_with_retry_go_spec outcome jitter base_delay k 0 max_retries []
      (by omega) (by simpa using hr)]
    obtain ⟨m, hm⟩ : ∃ m, max_retries - k = m + 1 := ⟨max_retries - k - 1, by omega⟩
    rw [hm]
    simp [generate_with_retry_go, hok]
  · intro outcome jitter max_retries base_delay k hk hr hfatal hok
    unfold generate_with_retry
    rw [generate_with_retry_go_spec outcome jitter base_delay k 0 max_retries []
      (by omega) (by simpa using hr)]
    obtain ⟨m, hm⟩ : ∃ m, max_retries - k = m + 1 := ⟨max_retries - k - 1, by omega⟩
    rw [hm]
    cases o : outcome k with
    | ok r => rw [o] at hok; simp [isOkOutcome] at hok
    | resourceExhausted => rw [o] at hfatal; simp [isRetryableOutcome] at hfatal
    | tooManyRequests => rw [o] at hfatal; simp [isRetryableOutcome] at hfatal
    | serviceUnavailable => rw [o] at hfatal; simp [isRetryableOutcome] at hfatal
    | deadlineExceeded => rw [o] at hfatal; simp [isRetryableOutcome] at hfatal
    | rpcError code =>
        rw [o] at hfatal
        cases code <;> simp_all [generate_with_retry_go, isRetryableOutcome]
    | otherError n => simp [generate_with_retry_go, o]
  · intro outcome jitter max_retries base_delay hr
    unfold generate_with_retry
    rw [generate_with_retry_go_spec outcome jitter base_delay max_retries 0
      max_retries [] (by omega) (by simpa using hr)]
    simp [generate_with_retry_go]
  · intro jitter base_delay a k
    induction k generalizing a with
    | zero => intro i hi; omega
    | succ k ih =>
        intro i hi
        cases i with
        | zero => simp [retryDelays]
        | succ i =>
            have h := ih (a + 1) i (by omega)
            rw [show a + (i + 1) = a + 1 + i from by omega]
            simpa [retryDelays] using h

def outcomeScheduleA : ℕ → VertexOutcome := fun i =>
  if i < 2 then VertexOutcome.serviceUnavailable else VertexOutcome.ok "Joy"

def outcomeScheduleB : ℕ → VertexOutcome := fun i =>
  if i < 1 then VertexOutcome.rpcError GrpcCode.RESOURCE_EXHAUSTED
  else VertexOutcome.otherError "InvalidArgument"

def outcomeScheduleC : ℕ → VertexOutcome := fun _ =>
  VertexOutcome.rpcError GrpcCode.UNAVAILABLE

def zeroJitter : ℕ → ℚ := fun _ => 0

theorem generate_with_retry_spec_witness :
    (generate_with_retry outcomeScheduleA zeroJitter 12 1
      = RetryResult.success "Joy" (retryDelays zeroJitter 1 0 2)) ∧
    (generate_with_retry outcomeScheduleB zeroJitter 12 1
      = RetryResult.raised (outcomeScheduleB 1) (retryDelays zeroJitter 1 0 1)) ∧
    (generate_with_retry outcomeScheduleC zeroJitter 12 1
      = RetryResult.exhausted (retryDelays zeroJitter 1 0 12)) ∧
    (retryDelays zeroJitter 1 0 2)[1]? = some (1 * 2 ^ (0 + 1) + zeroJitter (0 + 1)) :=
  ⟨generate_with_retry_spec.2.1 outcomeScheduleA zeroJitter 12 1 2 "Joy"
      (by norm_num) (by decide) (by decide),
   generate_with_retry_spec.2.2.1 outcomeScheduleB zeroJitter 12 1 1
      (by norm_num) (by decide) (by decide) (by decide),
   generate_with_retry_spec.2.2.2.1 outcomeScheduleC zeroJitter 12 1 (by decide),
   generate_with_retry_spec.2.2.2.2 zeroJitter 1 0 2 1 (by norm_num)⟩

/-! ## Orchestrator (`Pipeline/main.py`, `exec_net_build_pipeline`)

The walk is embedded with explicit state passing; each loop returns the
mutated progress subtree, the mutated module state and an optional
propagating exception.  SIGINTs are delivered through a schedule
`sched : ℕ → ℕ` giving the number of SIGINTs that arrive while the `n`-th
non-skipped attraction is being processed (the handler runs at the
attraction boundary, before the `interrupted` check, matching signals
arriving during the long-running scrape/LLM work). -/

/-- A scraped review, with the fields the pipeline reads
(`review_id`, `rating`, `review_date`, `description.get('en','')`). -/
structure Review where
  review_id : String
  rating : ℚ
  review_date : Option String
  description_en : String
deriving Repr, DecidableEq

/-- Persistence actions performed by the pipeline. -/
inductive PersistEvent where
  | networkInfo
  | graph
  | pipelineProgress
deriving Repr, DecidableEq

/-- External collaborators consumed by `exec_net_build_pipeline`, passed as
oracles: places API, scraper, NLP sentence/adjective/sentiment extractors,
and the retry-wrapped LLM classifier (which can raise). -/
structure PipelineEnv where
  attractionsOf : City → List Place
  reviewsOf : Place → List Review
  sentencesOf : String → List String
  adjectivesOf : String → List String
  compoundOf : String → ℚ
  classify : String → Except PyExc String

/-- The module-level mutable state threaded through the walk. -/
structure PipeState where
  net : NetworkState
  interrupted : Bool
  interrupted_count : ℕ
  events : List PersistEvent
  unit : ℕ
deriving Repr, DecidableEq

/-- `Pipeline.main.handle_sigint` as a function of the two module globals:
returns the updated `(interrupted, interrupted_count)` and `some code` when
the handler calls `sys.exit(code)`. -/
def handle_sigint (interrupted : Bool) (interrupted_count : ℕ) :
    Bool × ℕ × Option ℕ :=
  let interrupted := true
  let interrupted_count := interrupted_count + 1
  if 2 ≤ interrupted_count then (interrupted, interrupted_count, some 1)
  else (interrupted, interrupted_count, none)

/-- Deliver `n` pending SIGINTs through `handle_sigint`; `sys.exit(1)` from
the handler surfaces as a `SystemExit` exception at the current execution
point. -/
def deliverSigints : ℕ → PipeState → PipeState × Option PyExc
  | 0, st => (st, none)
  | n + 1, st =>
      match handle_sigint st.interrupted st.interrupted_count with
      | (i, c, some code) =>
          ({ st with interrupted := i, interrupted_count := c },
            some (PyExc.systemExit code))
      | (i, c, none) =>
          deliverSigints n { st with interrupted := i, interrupted_count := c }

/-- The `for adjective in adjectives` loop: classify (may raise) then
`network.add_edge` (which raises `AttributeError` if it has to create the
attraction's node); either exception propagates, leaving the graph as the
last successful call left it. -/
def processAdjectives (env : PipelineEnv) (contName counName cityName : String)
    (attraction : Place) (review : Review) (compound : ℚ) :
    List String → NetworkState → NetworkState × Option PyExc
  | [], net => (net, none)
  | adj :: rest, net =>
      match env.classify adj with
      | Except.error e => (net, some e)
      | Except.ok emo =>
          match add_edge net attraction adj "adjective" compound review.rating
              (some emo) review.review_date (some contName) (some counName)
              (some cityName) with
          | Except.error e => (net, some e)
          | Except.ok net' =>
              processAdjectives env contName counName cityName attraction
                review compound rest net' 

/-- The `for sentence in review_sentences` loop. -/
def processSentences (env : PipelineEnv) (contName counName cityName : String)
    (attraction : Place) (review : Review) :
    List String → NetworkState → NetworkState × Option PyExc
  | [], net => (net, none)
  | sentence :: rest, net =>
      match processAdjectives env contName counName cityName attraction review
          (env.compoundOf sentence) (env.adjectivesOf sentence) net with
      | (net', some e) => (net', some e)
      | (net', none) =>
          processSentences env contName counName cityName attraction review
            rest net'

/-- The `for review in reviews` loop: find-or-append the review's progress
entry, skip the ones already done, process sentences, mark the review done
on success. -/
def processReviews (env : PipelineEnv) (contName counName cityName : String)
    (attraction : Place) :
    List Review → List ReviewProgress → NetworkState →
    List ReviewProgress × NetworkState × Option PyExc
  | [], rps, net => (rps, net, none)
  | rv :: rest, rps, net =>
      let found := rps.find? (fun r => r.id == rv.review_id)
      let rp := found.getD ⟨rv.review_id, Progress.notDone⟩
      let rps := if found.isSome then rps else rps ++ [rp]
      if rp.progress = Progress.done then
        processReviews env contName counName cityName attraction rest rps net
      else
        match processSentences env contName counName cityName attraction rv
            (env.sentencesOf rv.description_en) net with
        | (net', some e) => (rps, net', some e)
        | (net', none) =>
            processReviews env contName counName cityName attraction rest
              (setFirstBy (fun r => r.id == rv.review_id)
                (fun r => { r with progress := Progress.done }) rps) net'

/-- The `for attraction in city_attractions` loop: find-or-append the
attraction's progress entry, skip a done attraction with a nonempty review
list, scrape and process its reviews, mark it done, then observe pending
SIGINTs and the `interrupted` flag (raising `StopIteration`). -/
def processAttractions (env : PipelineEnv) (sched : ℕ → ℕ)
    (contName counName cityName : String) :
    List Place → List AttractionProgress → PipeState →
    List AttractionProgress × PipeState × Option PyExc
  | [], aps, st => (aps, st, none)
  | att :: rest, aps, st =>
      let found := aps.find? (fun a => a.id == att.id)
      let ap := found.getD ⟨att.id, att.displayNameText, [], Progress.notDone⟩
      let aps := if found.isSome then aps else aps ++ [ap]
      if ap.progress = Progress.done ∧ 0 < ap.reviews.length then
        processAttractions env sched contName counName cityName rest aps st
      else
        match processReviews env contName counName cityName att
            (env.reviewsOf att) ap.reviews st.net with
        | (rps, net', some e) =>
            (setFirstBy (fun a => a.id == att.id)
              (fun a => { a with reviews := rps }) aps,
             { st with net := net' }, some e)
        | (rps, net', none) =>
            let aps := setFirstBy (fun a => a.id == att.id)
              (fun a => { a with reviews := rps, progress := Progress.done }) aps
            match deliverSigints (sched st.unit) { st with net := net' } with
            | (st', some e) => (aps, { st' with unit := st'.unit + 1 }, some e)
            | (st', none) =>
                let st' := { st' with unit := st'.unit + 1 }
                if st'.interrupted then (aps, st', some PyExc.stopIteration)
                else
                  processAttractions env sched contName counName cityName
                    rest aps st'

/-- The `for city in country.cities` loop. -/
def processCities (env : PipelineEnv) (sched : ℕ → ℕ)
    (contName counName : String) :
    List City → List CityProgress → PipeState →
    List CityProgress × PipeState × Option PyExc
  | [], cps, st => (cps, st, none)
  | city :: rest, cps, st =>
      let found := cps.find? (fun c => c.name == city.name)
      let cp := found.getD ⟨city.name, Progress.notDone, []⟩
      let cps := if found.isSome then cps else cps ++ [cp]
      if cp.progress = Progress.done then
        processCities env sched contName counName rest cps st
      else
        match processAttractions env sched contName counName city.name
            (env.attractionsOf city) cp.attractions st with
        | (aps, st', some e) =>
            (setFirstBy (fun c => c.name == city.name)
              (fun c => { c with attractions := aps }) cps, st', some e)
        | (aps, st', none) =>
            processCities env sched contName counName rest
              (setFirstBy (fun c => c.name == city.name)
                (fun c =>
                  { c with attractions := aps, progress := Progress.done })
                cps) st'

/-- The `for country in continent.countries` loop; after a country
completes, `network.save_network_info()` runs (the per-country partial
checkpoint). -/
def processCountries (env : PipelineEnv) (sched : ℕ → ℕ) (contName : String) :
    List Country → List CountryProgress → PipeState →
    List CountryProgress × PipeState × Option PyExc
  | [], cps, st => (cps, st, none)
  | country :: rest, cps, st =>
      let found := cps.find? (fun c => c.name == country.name)
      let cp := found.getD ⟨country.name, Progress.notDone, []⟩
      let cps := if found.isSome then cps else cps ++ [cp]
      if cp.progress = Progress.done then
        processCountries env sched contName rest cps st
      else
        match processCities env sched contName country.name country.cities
            cp.cities st with
        | (cityPs, st', some e) =>
            (setFirstBy (fun c => c.name == country.name)
              (fun c => { c with cities := cityPs }) cps, st', some e)
        | (cityPs, st', none) =>
            processCountries env sched contName rest
              (setFirstBy (fun c => c.name == country.name)
                (fun c =>
                  { c with cities := cityPs, progress := Progress.done })
                cps)
              { st' with events := st'.events ++ [PersistEvent.networkInfo] }

/-- The `for continent in places_info.continents` loop.  The continent's
progress entry is looked up with `next(..., None)` and then dereferenced
without a `None` check, so a missing entry raises `AttributeError`. -/
def processContinents (env : PipelineEnv) (sched : ℕ → ℕ) :
    List Continent → List ContinentProgress → PipeState →
    List ContinentProgress × PipeState × Option PyExc
  | [], cps, st => (cps, st, none)
  | cont :: rest, cps, st =>
      match cps.find? (fun c => c.name == cont.name) with
      | none => (cps, st, some PyExc.attributeError)
      | some cp =>
          if cp.progress = Progress.done then
            processContinents env sched rest cps st
          else
            match processCountries env sched cont.name cont.countries
                cp.countries st with
            | (counPs, st', some e) =>
                (setFirstBy (fun c => c.name == cont.name)
                  (fun c => { c with countries := counPs }) cps, st', some e)
            | (counPs, st', none) =>
                processContinents env sched rest
                  (setFirstBy (fun c => c.name == cont.name)
                    (fun c =>
                      { c with countries := counPs, progress := Progress.done })
                    cps) st'

/-- The persistence actions of `save_pipeline_progress`: write the progress
file, `network.save_graph()` (graph + emotion catalog), then
`network.save_network_info()`. -/
def save_pipeline_progress_events : List PersistEvent :=
  [PersistEvent.pipelineProgress, PersistEvent.graph, PersistEvent.networkInfo]

/-- Observable outcome of one `exec_net_build_pipeline` run. -/
structure RunResult where
  progress : PipelineProgress
  net : NetworkState
  events : List PersistEvent
  exit_code : ℕ
deriving Repr, DecidableEq

/-- `Pipeline.main.exec_net_build_pipeline`: reconcile the progress tree,
walk the catalog, and run the `finally` finalization on every exit path:
normal completion and the caught `StopIteration` of a graceful interruption
end in `sys.exit(0)`; an unwinding `SystemExit code` (second SIGINT) or an
uncaught error (e.g. the retry executor's `RuntimeError`) still runs the
`finally` clause and then terminates the process with a non-zero code. -/
def exec_net_build_pipeline (env : PipelineEnv) (sched : ℕ → ℕ)
    (places_info : PlacesCatalog) (stored : Option PipelineProgress)
    (net0 : NetworkState) : RunResult :=
  let pipeline_progress := get_pipeline_progress places_info stored
  let pipeline_progress := mark_empty_attractions pipeline_progress
  let st0 : PipeState := ⟨net0, false, 0, [], 0⟩
  match processContinents env sched places_info.continents
      pipeline_progress.continents st0 with
  | (cps, st, none) =>
      ⟨⟨cps⟩, st.net, st.events ++ save_pipeline_progress_events, 0⟩
  | (cps, st, some PyExc.stopIteration) =>
      ⟨⟨cps⟩, st.net, st.events ++ save_pipeline_progress_events, 0⟩
  | (cps, st, some (PyExc.systemExit code)) =>
      ⟨⟨cps⟩, st.net, st.events ++ save_pipeline_progress_events, code⟩
  | (cps, st, some _) =>
      ⟨⟨cps⟩, st.net, st.events ++ save_pipeline_progress_events, 1⟩

theorem processCities_skip (env : PipelineEnv) (sched : ℕ → ℕ)
    (contName counName : String) (city : City) (rest : List City)
    (cps : List CityProgress) (st : PipeState) (cp : CityProgress)
    (hfind : cps.find? (fun c => c.name == city.name) = some cp)
    (hdone : cp.progress = Progress.done) :
    processCities env sched contName counName (city :: rest) cps st
      = processCities env sched contName counName rest cps st := by
  simp [processCities, hfind, hdone]

theorem processCountries_skip (env : PipelineEnv) (sched : ℕ → ℕ)
    (contName : String) (country : Country) (rest : List Country)
    (cps : List CountryProgress) (st : PipeState) (cp : CountryProgress)
    (hfind : cps.find? (fun c => c.name == country.name) = some cp)
    (hdone : cp.progress = Progress.done) :
    processCountries env sched contName (country :: rest) cps st
      = processCountries env sched contName rest cps st := by
  simp [processCountries, hfind, hdone]

theorem processContinents_skip (env : PipelineEnv) (sched : ℕ → ℕ)
    (cont : Continent) (rest : List Continent)
    (cps : List ContinentProgress) (st : PipeState) (cp : ContinentProgress)
    (hfind : cps.find? (fun c => c.name == cont.name) = some cp)
    (hdone : cp.progress = Progress.done) :
    processContinents env sched (cont :: rest) cps st
      = processContinents env sched rest cps st := by
  simp [processContinents, hfind, hdone]

/- Concrete resumed-run scenario for the skip/resume algorithm: country
"France" is fully done in the checkpoint, country "Germany" is half done
(city "Berlin" done, city "Munich" not). -/

def attA : Place := ⟨"pa", "PA", 4, 0, 0, "ua", 1⟩
def attB : Place := ⟨"pb", "PB", 5, 0, 0, "ub", 1⟩

def placesC3 : PlacesCatalog :=
  ⟨[⟨"Europe",
      [⟨"France", [⟨"Paris", 1, 2, 100⟩]⟩,
       ⟨"Germany", [⟨"Berlin", 3, 4, 200⟩, ⟨"Munich", 5, 6, 300⟩]⟩]⟩]⟩

def envC3 : PipelineEnv :=
  { attractionsOf := fun city =>
      if city.name == "Paris" then [attA]
      else if city.name == "Munich" then [attB]
      else [],
    reviewsOf := fun p =>
      if p.id == "pb" then [⟨"r1", 5, some "d1", "great stay"⟩]
      else [⟨"rx", 1, none, "bad"⟩],
    sentencesOf := fun d => [d],
    adjectivesOf := fun sentence =>
      if sentence == "great stay" then ["great"] else ["bad"],
    compoundOf := fun sentence =>
      if sentence == "great stay" then 1 else -1,
    classify := fun _ => Except.ok "Joy" }

def storedC3 : PipelineProgress :=
  ⟨[⟨"Europe", Progress.notDone,
      [⟨"France", Progress.done,
          [⟨"Paris", Progress.done,
              [⟨"pa", "PA", [⟨"ra", Progress.done⟩], Progress.done⟩]⟩]⟩,
       ⟨"Germany", Progress.notDone,
          [⟨"Berlin", Progress.done,
              [⟨"pberl", "PBerl", [⟨"rb", Progress.done⟩], Progress.done⟩]⟩,
           ⟨"Munich", Progress.notDone, []⟩]⟩]⟩]⟩

/-- The graph snapshot loaded by the resumed run: both attractions' nodes
and both catalog entries already exist (created by the interrupted previous
run — `add_edge` itself can never create an attraction node); only
France's edge exists so far. -/
def netC3 : NetworkState :=
  ⟨[("pa", NodeData.attractionNode "PA" 4 0 0 (some "Europe") (some "France")
      (some "Paris") []),
    ("adjective_1", NodeData.emotionNode "adjective" "nice" (some "Joy")),
    ("pb", NodeData.attractionNode "PB" 5 0 0 (some "Europe") (some "Germany")
      (some "Munich") []),
    ("adjective_2", NodeData.emotionNode "adjective" "great" (some "Joy"))],
   [(("pa", "adjective_1"), ⟨5, 1, [some "d0"]⟩)],
   [("nice", ⟨"adjective_1", "nice", "adjective", some "Joy"⟩),
    ("great", ⟨"adjective_2", "great", "adjective", some "Joy"⟩)]⟩

def runC3 : RunResult :=
  exec_net_build_pipeline envC3 (fun _ => 0) placesC3 (some storedC3) netC3

/-- C3: the depth-first walk skips every subtree whose root is marked done
before descending into it (continent, country and city level), and in the
concrete resumed run from a checkpoint where country France is fully done
and country Germany is half done (Berlin done, Munich not):
the run exits 0, all of France's cities are skipped, the walk resumes at
Munich (Germany's first not-done city, whose attraction is then processed
and marked done), and the graph weight of France's attraction edge is
unchanged. -/
theorem skip_resume_spec :
    (∀ (env : PipelineEnv) (sched : ℕ → ℕ) (cont : Continent)
        (rest : List Continent) (cps : List ContinentProgress) (st : PipeState)
        (cp : ContinentProgress),
      cps.find? (fun c => c.name == cont.name) = some cp →
      cp.progress = Progress.done →
      processContinents env sched (cont :: rest) cps st
        = processContinents env sched rest cps st) ∧
    (∀ (env : PipelineEnv) (sched : ℕ → ℕ) (contName : String)
        (country : Country) (rest : List Country) (cps : List CountryProgress)
        (st : PipeState) (cp : CountryProgress),
      cps.find? (fun c => c.name == country.name) = some cp →
      cp.progress = Progress.done →
      processCountries env sched contName (country :: rest) cps st
        = processCountries env sched contName rest cps st) ∧
    (∀ (env : PipelineEnv) (sched : ℕ → ℕ) (contName counName : String)
        (city : City) (rest : List City) (cps : List CityProgress)
        (st : PipeState) (cp : CityProgress),
      cps.find? (fun c => c.name == city.name) = some cp →
      cp.progress = Progress.done →
      processCities env sched contName counName (city :: rest) cps st
        = processCities env sched contName counName rest cps st) ∧
    runC3.exit_code = 0 ∧
    runC3.progress =
      ⟨[⟨"Europe", Progress.done,
          [⟨"France", Progress.done,
              [⟨"Paris", Progress.done,
                  [⟨"pa", "PA", [⟨"ra", Progress.done⟩], Progress.done⟩]⟩]⟩,
           ⟨"Germany", Progress.done,
              [⟨"Berlin", Progress.done,
                  [⟨"pberl", "PBerl", [⟨"rb", Progress.done⟩],
                      Progress.done⟩]⟩,
               ⟨"Munich", Progress.done,
                  [⟨"pb", "PB", [⟨"r1", Progress.done⟩],
                      Progress.done⟩]⟩]⟩]⟩]⟩ ∧
    find_edge runC3.net "pa" "adjective_1" = some ⟨5, 1, [some "d0"]⟩ ∧
    find_edge runC3.net "pb" "adjective_2"
      = some ⟨calculate_adequacy_weight 1 5, 1, [some "d1"]⟩ :=
  ⟨processContinents_skip, processCountries_skip, processCities_skip,
    rfl, rfl, rfl, rfl⟩

theorem skip_resume_spec_witness :
    (processContinents envC3 (fun _ => 0)
        [⟨"Oceania", []⟩] [⟨"Oceania", Progress.done, []⟩]
        ⟨emptyNetwork, false, 0, [], 0⟩
      = processContinents envC3 (fun _ => 0)
        [] [⟨"Oceania", Progress.done, []⟩] ⟨emptyNetwork, false, 0, [], 0⟩) ∧
    (processCountries envC3 (fun _ => 0) "Europe"
        [⟨"France", []⟩] [⟨"France", Progress.done, []⟩]
        ⟨emptyNetwork, false, 0, [], 0⟩
      = processCountries envC3 (fun _ => 0) "Europe"
        [] [⟨"France", Progress.done, []⟩] ⟨emptyNetwork, false, 0, [], 0⟩) ∧
    (processCities envC3 (fun _ => 0) "Europe" "Germany"
        [⟨"Berlin", 3, 4, 200⟩] [⟨"Berlin", Progress.done, []⟩]
        ⟨emptyNetwork, false, 0, [], 0⟩
      = processCities envC3 (fun _ => 0) "Europe" "Germany"
        [] [⟨"Berlin", Progress.done, []⟩] ⟨emptyNetwork, false, 0, [], 0⟩) :=
  ⟨skip_resume_spec.1 envC3 (fun _ => 0) ⟨"Oceania", []⟩ []
      [⟨"Oceania", Progress.done, []⟩] ⟨emptyNetwork, false, 0, [], 0⟩
      ⟨"Oceania", Progress.done, []⟩ rfl rfl,
   skip_resume_spec.2.1 envC3 (fun _ => 0) "Europe" ⟨"France", []⟩ []
      [⟨"France", Progress.done, []⟩] ⟨emptyNetwork, false, 0, [], 0⟩
      ⟨"France", Progress.done, []⟩ rfl rfl,
   skip_resume_spec.2.2.1 envC3 (fun _ => 0) "Europe" "Germany"
      ⟨"Berlin", 3, 4, 200⟩ [] [⟨"Berlin", Progress.done, []⟩]
      ⟨emptyNetwork, false, 0, [], 0⟩ ⟨"Berlin", Progress.done, []⟩ rfl rfl⟩

/- Concrete interruption scenarios: one city with two attractions; the
SIGINT schedule delivers signals while the first attraction is being
processed. -/

def attC : Place := ⟨"pc", "PC", 4, 0, 0, "uc", 1⟩
def attD : Place := ⟨"pd", "PD", 3, 0, 0, "ud", 1⟩

def placesC5 : PlacesCatalog :=
  ⟨[⟨"Asia", [⟨"Japan", [⟨"Tokyo", 7, 8, 400⟩]⟩]⟩]⟩

def envC5 : PipelineEnv :=
  { attractionsOf := fun city =>
      if city.name == "Tokyo" then [attC, attD] else [],
    reviewsOf := fun p =>
      if p.id == "pc" then [⟨"rc", 5, none, "nice place"⟩]
      else [⟨"rd", 4, none, "ok spot"⟩],
    sentencesOf := fun d => [d],
    adjectivesOf := fun sentence =>
      if sentence == "nice place" then ["nice"] else ["ok"],
    compoundOf := fun _ => 1,
    classify := fun _ => Except.ok "Joy" }

/-- The loaded snapshot: the first attraction's node and the catalog entry
for its adjective already exist (from an earlier interrupted run). -/
def netC5 : NetworkState :=
  ⟨[("pc", NodeData.attractionNode "PC" 4 0 0 (some "Asia") (some "Japan")
      (some "Tokyo") []),
    ("adjective_1", NodeData.emotionNode "adjective" "nice" (some "Joy"))],
   [],
   [("nice", ⟨"adjective_1", "nice", "adjective", some "Joy"⟩)]⟩

/-- One SIGINT arrives while the first attraction is processed. -/
def runC5single : RunResult :=
  exec_net_build_pipeline envC5 (fun u => if u == 0 then 1 else 0) placesC5
    none netC5

/-- Two SIGINTs arrive while the first attraction is processed (the second
while the state is already interrupted). -/
def runC5double : RunResult :=
  exec_net_build_pipeline envC5 (fun u => if u == 0 then 2 else 0) placesC5
    none netC5

/-- C5 counterexample: a second SIGINT while already interrupted does exit
with a non-zero code, but it does **not** skip final persistence — the
`sys.exit(1)` raised by `handle_sigint` unwinds through the
`try/except StopIteration/finally` of `exec_net_build_pipeline`, whose
`finally` clause runs `save_pipeline_progress` (progress file, graph with
emotion catalog, network statistics) before the process terminates. -/
theorem sigint_double_counterexample :
    runC5double.exit_code = 1 ∧
    runC5double.events = save_pipeline_progress_events ∧
    runC5double.events ≠ [] :=
  ⟨rfl, rfl, by decide⟩

/-- C5 (amended): a first SIGINT sets the interrupted flag without exiting;
the walk stops at the next attraction boundary, finalization runs and the
process exits 0.  A second SIGINT while already interrupted calls
`sys.exit(1)`: the process exits with code 1, but the `finally` clause
still performs the final persistence (it is not skipped). -/
theorem sigint_spec_amended :
    handle_sigint false 0 = (true, 1, none) ∧
    handle_sigint true 1 = (true, 2, some 1) ∧
    runC5single.exit_code = 0 ∧
    runC5single.events = save_pipeline_progress_events ∧
    runC5single.progress =
      ⟨[⟨"Asia", Progress.notDone,
          [⟨"Japan", Progress.notDone,
              [⟨"Tokyo", Progress.notDone,
                  [⟨"pc", "PC", [⟨"rc", Progress.done⟩],
                      Progress.done⟩]⟩]⟩]⟩]⟩ ∧
    runC5double.exit_code = 1 ∧
    runC5double.events = save_pipeline_progress_events :=
  ⟨rfl, rfl, rfl, rfl, rfl, rfl, rfl⟩

/- Concrete retries-exhausted scenario: the classifier raises the terminal
`RuntimeError` on the first review's adjective; a second review and a second
attraction are still pending. -/

def attE : Place := ⟨"pe", "PE", 4, 0, 0, "ue", 1⟩
def attF : Place := ⟨"pf", "PF", 3, 0, 0, "uf", 1⟩

def placesC6 : PlacesCatalog :=
  ⟨[⟨"America", [⟨"Peru", [⟨"Lima", 9, 9, 500⟩]⟩]⟩]⟩

def envC6 : PipelineEnv :=
  { attractionsOf := fun city =>
      if city.name == "Lima" then [attE, attF] else [],
    reviewsOf := fun p =>
      if p.id == "pe" then
        [⟨"re1", 5, none, "awful mess"⟩, ⟨"re2", 4, none, "fine view"⟩]
      else [⟨"rf", 4, none, "fine view"⟩],
    sentencesOf := fun d => [d],
    adjectivesOf := fun sentence =>
      if sentence == "awful mess" then ["awful"] else ["fine"],
    compoundOf := fun _ => 1,
    classify := fun adj =>
      if adj == "awful" then Except.error PyExc.runtimeError
      else Except.ok "Joy" }

def runC6 : RunResult :=
  exec_net_build_pipeline envC6 (fun _ => 0) placesC6 none emptyNetwork

/-- C6 counterexample: when the classifier's retry budget is exhausted
(`RuntimeError` from `generate_with_retry`), the run **is** aborted: no
`except` clause around the review loop catches it, so the process exits
with a non-zero code, the remaining review (`re2`) is never recorded and
the remaining attraction (`pf`) is never visited — the orchestrator does
not continue with the next unit. -/
theorem retries_exhausted_aborts_counterexample :
    runC6.exit_code = 1 ∧ runC6.exit_code ≠ 0 ∧
    runC6.progress =
      ⟨[⟨"America", Progress.notDone,
          [⟨"Peru", Progress.notDone,
              [⟨"Lima", Progress.notDone,
                  [⟨"pe", "PE", [⟨"re1", Progress.notDone⟩],
                      Progress.notDone⟩]⟩]⟩]⟩]⟩ :=
  ⟨rfl, by decide, rfl⟩

/-- C6 (amended): when the retry budget is exhausted, the terminal
`RuntimeError` propagates out of the walk: the failing review is left not
done (as is its attraction), no further unit is processed, the `finally`
clause still persists the Progress Tree, the Graph and the statistics, and
the process aborts with a non-zero exit code. -/
theorem retries_exhausted_spec_amended :
    runC6.exit_code = 1 ∧
    runC6.events = save_pipeline_progress_events ∧
    runC6.progress =
      ⟨[⟨"America", Progress.notDone,
          [⟨"Peru", Progress.notDone,
              [⟨"Lima", Progress.notDone,
                  [⟨"pe", "PE", [⟨"re1", Progress.notDone⟩],
                      Progress.notDone⟩]⟩]⟩]⟩]⟩ ∧
    runC6.net = emptyNetwork :=
  ⟨rfl, rfl, rfl, rfl⟩

theorem deliverSigints_events : ∀ (n : ℕ) (st : PipeState),
    (deliverSigints n st).1.events = st.events := by
  intro n
  induction n with
  | zero => intro st; rfl
  | succ n ih =>
      intro st
      by_cases h : 2 ≤ st.interrupted_count + 1 <;>
        simp [deliverSigints, handle_sigint, h, ih]

theorem processAttractions_events (env : PipelineEnv) (sched : ℕ → ℕ)
    (contName counName cityName : String) :
    ∀ (atts : List Place) (aps : List AttractionProgress) (st : PipeState),
    (processAttractions env sched contName counName cityName atts aps st).2.1.events
      = st.events := by
  intro atts
  induction atts with
  | nil => intro aps st; rfl
  | cons att rest ih =>
      intro aps st
      simp only [processAttractions]
      split
      · exact ih _ _
      · split
        · rfl
        · rename_i rps net' heq
          split
          · rename_i st' e hdel
            have h := deliverSigints_events (sched st.unit) { st with net := net' }
            rw [hdel] at h
            simpa using h
          · rename_i st' hdel
            have h := deliverSigints_events (sched st.unit) { st with net := net' }
            rw [hdel] at h
            split
            · simpa using h
            · rw [ih]
              simpa using h

theorem processCities_events (env : PipelineEnv) (sched : ℕ → ℕ)
    (contName counName : String) :
    ∀ (cities : List City) (cps : List CityProgress) (st : PipeState),
    (processCities env sched contName counName cities cps st).2.1.events
      = st.events := by
  intro cities
  induction cities with
  | nil => intro cps st; rfl
  | cons city rest ih =>
      intro cps st
      simp only [processCities]
      split
      · exact ih _ _
      · split
        · rename_i aps st' e heq
          have h := processAttractions_events env sched contName counName
            city.name (env.attractionsOf city)
            ((cps.find? (fun c => c.name == city.name)).getD
              ⟨city.name, Progress.notDone, []⟩).attractions st
          rw [heq] at h
          simpa using h
        · rename_i aps st' heq
          have h := processAttractions_events env sched contName counName
            city.name (env.attractionsOf city)
            ((cps.find? (fun c => c.name == city.name)).getD
              ⟨city.name, Progress.notDone, []⟩).attractions st
          rw [heq] at h
          rw [ih]
          simpa using h

/-- Processing a single country either completes it — appending exactly one
`networkInfo` event (the `save_network_info()` partial checkpoint) and no
other persistence event — or (skip / propagating exception) leaves the
event trace unchanged. -/
theorem processCountries_single_events (env : PipelineEnv) (sched : ℕ → ℕ)
    (contName : String) (country : Country) (cps : List CountryProgress)
    (st : PipeState) :
    ((processCountries env sched contName [country] cps st).2.1.events
        = st.events ++ [PersistEvent.networkInfo] ∧
      (processCountries env sched contName [country] cps st).2.2 = none) ∨
    (processCountries env sched contName [country] cps st).2.1.events
      = st.events := by
  simp only [processCountries]
  split
  · right; rfl
  · split
    · rename_i cityPs st' e heq
      right
      have h := processCities_events env sched contName country.name
        country.cities
        ((cps.find? (fun c => c.name == country.name)).getD
          ⟨country.name, Progress.notDone, []⟩).cities st
      rw [heq] at h
      simpa using h
    · rename_i cityPs st' heq
      left
      have h := processCities_events env sched contName country.name
        country.cities
        ((cps.find? (fun c => c.name == country.name)).getD
          ⟨country.name, Progress.notDone, []⟩).cities st
      rw [heq] at h
      simp only [processCountries]
      constructor
      · simpa using h
      · trivial

/- Concrete single-country run for the per-country checkpoint. -/

def attG : Place := ⟨"pg", "PG", 5, 0, 0, "ug", 1⟩

def placesC8 : PlacesCatalog :=
  ⟨[⟨"Africa", [⟨"Egypt", [⟨"Cairo", 0, 0, 600⟩]⟩]⟩]⟩

/-- The loaded snapshot: the attraction's node and the catalog entry for
its adjective already exist (from an earlier interrupted run). -/
def netC8 : NetworkState :=
  ⟨[("pg", NodeData.attractionNode "PG" 5 0 0 (some "Africa") (some "Egypt")
      (some "Cairo") []),
    ("adjective_1", NodeData.emotionNode "adjective" "lovely" (some "Joy"))],
   [],
   [("lovely", ⟨"adjective_1", "lovely", "adjective", some "Joy"⟩)]⟩

def envC8 : PipelineEnv :=
  { attractionsOf := fun c => if c.name == "Cairo" then [attG] else [],
    reviewsOf := fun _ => [⟨"rg", 5, some "dg", "lovely site"⟩],
    sentencesOf := fun d => [d],
    adjectivesOf := fun _ => ["lovely"],
    compoundOf := fun _ => 1,
    classify := fun _ => Except.ok "Joy" }

/-- The country loop of the concrete run, in isolation. -/
def walkC8 : List CountryProgress × PipeState × Option PyExc :=
  processCountries envC8 (fun _ => 0) "Africa" [⟨"Egypt", [⟨"Cairo", 0, 0, 600⟩]⟩]
    [⟨"Egypt", Progress.notDone, []⟩] ⟨netC8, false, 0, [], 0⟩

def runC8 : RunResult :=
  exec_net_build_pipeline envC8 (fun _ => 0) placesC8 none netC8

/-- C8 counterexample: after the country "Egypt" fully completes, the
per-country checkpoint has emitted only the network-statistics flush
(`save_network_info`); no `save_graph` (graph + emotion catalog) flush
happens at the country boundary. -/
theorem per_country_flush_counterexample :
    walkC8.2.2 = none ∧
    walkC8.2.1.events = [PersistEvent.networkInfo] ∧
    PersistEvent.graph ∉ walkC8.2.1.events := by
  refine ⟨rfl, rfl, ?_⟩
  have h : walkC8.2.1.events = [PersistEvent.networkInfo] := rfl
  rw [h]
  decide

/-- C8 (amended): the per-country partial checkpoint flushes only the
aggregate network statistics — nothing is persisted below country level,
each completed country appends exactly one `networkInfo` event, and the
graph (with the emotion catalog) and the progress tree are flushed only by
the finalization step. -/
theorem per_country_flush_spec_amended :
    (∀ (env : PipelineEnv) (sched : ℕ → ℕ) (contName counName : String)
        (cities : List City) (cps : List CityProgress) (st : PipeState),
      (processCities env sched contName counName cities cps st).2.1.events
        = st.events) ∧
    (∀ (env : PipelineEnv) (sched : ℕ → ℕ) (contName : String)
        (country : Country) (cps : List CountryProgress) (st : PipeState),
      ((processCountries env sched contName [country] cps st).2.1.events
          = st.events ++ [PersistEvent.networkInfo] ∧
        (processCountries env sched contName [country] cps st).2.2 = none) ∨
      (processCountries env sched contName [country] cps st).2.1.events
        = st.events) ∧
    runC8.events
      = PersistEvent.networkInfo :: save_pipeline_progress_events :=
  ⟨fun env sched contName counName cities cps st =>
      processCities_events env sched contName counName cities cps st,
   processCountries_single_events, rfl⟩
